import Mathlib

/-!
Verification of the CCD data-reduction and aperture-photometry pipeline
of this repository (src/data_reduction.py and src/photometry.py).

Images are modelled as flattened grids of rational pixel values.  Library
functions of numpy / astropy / photutils that the repository only calls
(aperture sums, geometric areas, star detection, sigma-clipped statistics,
date-string conversion) are abstracted as components of an environment
structure `AstroEnv`; everything the repository itself computes is embedded
exactly.  np.median is embedded exactly (sort the values, take the middle
one, or the mean of the two middle ones for even length), and the
instrumental-magnitude computation -2.5 * np.log10(flux) is given an
explicit finite / infinite / NaN value semantics.  File input is modelled
by a loader function returning either a frame or an I/O error.
-/

namespace Exoplanets

/-- A 2D image, flattened to a list of rational pixel values. -/
abbrev Image := List ℚ

/-- An (x, y) pixel position. -/
abbrev Pos := ℚ × ℚ

/-- Elementwise subtraction of two images (numpy array subtraction, which
allocates a fresh result array). -/
def imSub (a b : Image) : Image := List.zipWith (fun x y => x - y) a b

/-- Elementwise division of two images. -/
def imDiv (a b : Image) : Image := List.zipWith (fun x y => x / y) a b

/-- Divide every pixel of an image by a scalar. -/
def imDivScalar (a : Image) (m : ℚ) : Image := a.map (fun x => x / m)

/-- Subtract a scalar from every pixel of an image. -/
def imSubScalar (a : Image) (m : ℚ) : Image := a.map (fun x => x - m)

/-- Ascending sort of the pixel values, as numpy sorts before taking a
median. -/
def sortQ (l : List ℚ) : List ℚ := l.insertionSort (fun x y => x ≤ y)

/-- np.median of a flattened array: the middle element of the sorted values
for odd length, the mean of the two middle elements for even length.
(numpy yields NaN on an empty array; the claims below never evaluate that
case, and here it gets the junk value 0.) -/
def npMedian (l : List ℚ) : ℚ :=
  if l.length = 0 then 0
  else if l.length % 2 = 1 then (sortQ l).getD (l.length / 2) 0
  else ((sortQ l).getD (l.length / 2 - 1) 0 + (sortQ l).getD (l.length / 2) 0) / 2

/-- Pixelwise median across a stack of equally shaped frames, i.e.
np.median(stack, axis=0). -/
def medianCombine (frames : List Image) : Image :=
  (List.range (frames.headD []).length).map
    (fun i => npMedian (frames.map (fun f => f.getD i 0)))

/-- A FITS header reduced to its list of cards; the reduction code only ever
appends HISTORY cards to it. -/
abbrev HistHeader := List (String × String)

/-- header['HISTORY'] = s appends a HISTORY card. -/
def addHistory (h : HistHeader) (s : String) : HistHeader := h ++ [("HISTORY", s)]

/-- load_fits: reading a FITS file yields pixel data and a header, or an
I/O error (missing or corrupt file). -/
abbrev Load := String → Except String (Image × HistHeader)

/-- create_master_bias: reject an empty file list, otherwise load every
bias frame and median-combine the stack.  (Persisting to output_path is an
optional side effect not modelled here.) -/
def createMasterBias (load : Load) (biasFiles : List String) :
    Except String Image :=
  if biasFiles.length = 0 then Except.error "No bias files provided"
  else do
    let biasData ← biasFiles.mapM (fun f => do
      let r ← load f
      pure r.1)
    pure (medianCombine biasData)

/-- The loop body of create_master_flat: subtract the master bias when one
is given, then normalize the flat by its own median. -/
def flatNormalize (masterBias : Option Image) (data : Image) : Image :=
  let data := match masterBias with
    | some b => imSub data b
    | none => data
  imDivScalar data (npMedian data)

/-- create_master_flat: reject an empty file list, otherwise load every
flat, bias-subtract and self-normalize it, median-combine the stack, and
renormalize the combination by its median. -/
def createMasterFlat (load : Load) (flatFiles : List String)
    (masterBias : Option Image) : Except String Image :=
  if flatFiles.length = 0 then Except.error "No flat files provided"
  else do
    let flatData ← flatFiles.mapM (fun f => do
      let r ← load f
      pure (flatNormalize masterBias r.1))
    let masterFlat := medianCombine flatData
    pure (imDivScalar masterFlat (npMedian masterFlat))

/-- reduce_science_frame: load the science frame, subtract the master bias
when given (recording a HISTORY card), then divide by the master flat when
given (recording a HISTORY card). -/
def reduceScienceFrame (load : Load) (scienceFile : String)
    (masterBias masterFlat : Option Image) :
    Except String (Image × HistHeader) := do
  let r ← load scienceFile
  let (data, header) := r
  let (data, header) := match masterBias with
    | some b => (imSub data b, addHistory header "Bias subtracted")
    | none => (data, header)
  let (data, header) := match masterFlat with
    | some f => (imDiv data f, addHistory header "Flat fielded")
    | none => (data, header)
  pure (data, header)

/-- reduce_science_frame with the caller-owned master frames threaded as
explicit state.  Every operation the source performs with them
(data - master_bias, data / master_flat) allocates a fresh array and
rebinds the local name data; no in-place numpy operation touches the
master frames, so the state the caller observes afterwards is returned
alongside the result. -/
def reduceScienceFrameTracked (load : Load) (scienceFile : String)
    (masterBias masterFlat : Option Image) :
    Except String (Image × HistHeader) × Option Image × Option Image :=
  (reduceScienceFrame load scienceFile masterBias masterFlat,
   masterBias, masterFlat)

/-- batch_reduce with the master frames threaded through every per-file
reduction in order. -/
def batchReduceTracked (load : Load) (files : List String)
    (masterBias masterFlat : Option Image) :
    List (Except String (Image × HistHeader)) × Option Image × Option Image :=
  match files with
  | [] => ([], masterBias, masterFlat)
  | f :: fs =>
    let s1 := reduceScienceFrameTracked load f masterBias masterFlat
    let s2 := batchReduceTracked load fs s1.2.1 s1.2.2
    (s1.1 :: s2.1, s2.2.1, s2.2.2)

/-- Result of astropy sigma_clipped_stats: mean, median, standard
deviation. -/
structure ClippedStats where
  mean : ℚ
  median : ℚ
  std : ℚ

/-- One row of a DAOStarFinder detection table. -/
structure DetRow where
  x : ℚ
  y : ℚ

/-- The library functions the photometry module calls but does not define:
photutils aperture sums and exact geometric areas, DAOStarFinder, astropy
sigma-clipped statistics, and astropy Time conversion of a DATE-OBS string
to a Julian Date. -/
structure AstroEnv where
  apertureSum : Image → Pos → ℚ → ℚ
  annulusSum : Image → Pos → ℚ → ℚ → ℚ
  apertureArea : ℚ → ℚ
  annulusArea : ℚ → ℚ → ℚ
  sigmaClippedStats : Image → ℚ → ClippedStats
  daoFind : ℚ → ℚ → Image → List DetRow
  jdOfDateObs : String → ℚ

/-- find_sources: sigma-clipped background statistics with sigma = 3, then
DAOStarFinder with the given fwhm and threshold * std on the
median-subtracted image.  The detection table is returned as-is; an empty
table is an ordinary value. -/
def findSources (env : AstroEnv) (data : Image) (fwhm threshold : ℚ) :
    List DetRow :=
  let s := env.sigmaClippedStats data 3
  env.daoFind fwhm (threshold * s.std) (imSubScalar data s.median)

/-- One row of the measure_aperture_photometry table (the rational-valued
columns; the mag_inst column lives in magInstColumn). -/
structure PhotRow where
  aperture_sum : ℚ
  background : ℚ
  aper_bkg : ℚ
  aper_sum_bkgsub : ℚ

/-- measure_aperture_photometry, per position: raw aperture sum, background
per pixel (annulus sum over annulus area), scaled background (background
per pixel times aperture area), and background-subtracted flux (aperture
sum minus scaled background). -/
def measureAperturePhotometry (env : AstroEnv) (data : Image)
    (positions : List Pos)
    (apertureRadius annulusInner annulusOuter : ℚ) : List PhotRow :=
  positions.map (fun p =>
    let apSum := env.apertureSum data p apertureRadius
    let bkgMean := env.annulusSum data p annulusInner annulusOuter /
      env.annulusArea annulusInner annulusOuter
    let bkgSum := bkgMean * env.apertureArea apertureRadius
    { aperture_sum := apSum
      background := bkgMean
      aper_bkg := bkgSum
      aper_sum_bkgsub := apSum - bkgSum })

/-- Value semantics for the magnitude computation done in floating point:
a finite double, one of the two infinities, or NaN. -/
inductive NpVal where
  | finite (x : ℝ)
  | posinf
  | neginf
  | nan

/-- np.log10: finite for positive input, -inf at zero, NaN for negative
input; never an exception. -/
noncomputable def npLog10 (q : ℚ) : NpVal :=
  if 0 < q then NpVal.finite (Real.logb 10 (q : ℝ))
  else if q = 0 then NpVal.neginf
  else NpVal.nan

/-- Multiplication of such a value by the negative constant -2.5, as IEEE
arithmetic does it. -/
noncomputable def npMulNegTwoPointFive : NpVal → NpVal
  | NpVal.finite x => NpVal.finite (-(5 / 2) * x)
  | NpVal.posinf => NpVal.neginf
  | NpVal.neginf => NpVal.posinf
  | NpVal.nan => NpVal.nan

/-- Whether such a value is a finite number. -/
def NpVal.isFinite : NpVal → Bool
  | NpVal.finite _ => true
  | _ => false

/-- The mag_inst column added to the photometry table:
-2.5 * np.log10(aper_sum_bkgsub), rowwise. -/
noncomputable def magInstColumn (env : AstroEnv) (data : Image)
    (positions : List Pos)
    (apertureRadius annulusInner annulusOuter : ℚ) : List NpVal :=
  (measureAperturePhotometry env data positions
      apertureRadius annulusInner annulusOuter).map
    (fun row => npMulNegTwoPointFive (npLog10 row.aper_sum_bkgsub))

/-- The header keywords extract_light_curve reads for the observation
time; each is absent or present with a value. -/
structure TimeHeader where
  jd : Option ℚ
  mjd : Option ℚ
  dateObs : Option String

/-- The time-resolution chain of extract_light_curve: JD if present, else
MJD, else DATE-OBS converted to a Julian Date, else 0.0. -/
def resolveTime (jdOf : String → ℚ) (h : TimeHeader) : ℚ :=
  match h.jd with
  | some t => t
  | none =>
    match h.mjd with
    | some t => t
    | none =>
      match h.dateObs with
      | some s => jdOf s
      | none => 0

/-- One loaded FITS frame as extract_light_curve consumes it: pixel data
plus the time-related header keywords. -/
structure Frame where
  data : Image
  header : TimeHeader

/-- Python truthiness of the comparison_positions argument: None and the
empty list are both falsy. -/
def optTruthy (o : Option (List Pos)) : Bool :=
  match o with
  | none => false
  | some l => !l.isEmpty

/-- The light curve DataFrame: the four columns, row-aligned. -/
structure LightCurve where
  time : List ℚ
  target_flux : List ℚ
  comparison_flux : List ℚ
  relative_flux : List ℚ

/-- The aper_sum_bkgsub column of a photometry run with the default
annulus radii 15 and 20, as extract_light_curve reads it. -/
def bkgsubColumn (env : AstroEnv) (data : Image) (positions : List Pos)
    (apertureRadius : ℚ) : List ℚ :=
  (measureAperturePhotometry env data positions apertureRadius 15 20).map
    (fun row => row.aper_sum_bkgsub)

/-- extract_light_curve over already-loaded frames: per frame, resolve the
observation time, measure the target flux, and sum the comparison-star
fluxes when comparison positions are truthy (else use 1.0); afterwards
divide target by comparison per row and renormalize the column by its
median. -/
def extractLightCurve (env : AstroEnv) (frames : List Frame)
    (targetPosition : Pos) (comparisonPositions : Option (List Pos))
    (apertureRadius : ℚ) : LightCurve :=
  let rows := frames.map (fun fr =>
    let time := resolveTime env.jdOfDateObs fr.header
    let targetF := (bkgsubColumn env fr.data [targetPosition] apertureRadius).headD 0
    let compF :=
      if optTruthy comparisonPositions then
        (bkgsubColumn env fr.data (comparisonPositions.getD []) apertureRadius).sum
      else 1
    (time, targetF, compF))
  let times := rows.map (fun r => r.1)
  let targetFlux := rows.map (fun r => r.2.1)
  let compFlux := rows.map (fun r => r.2.2)
  let rel := List.zipWith (fun a b => a / b) targetFlux compFlux
  { time := times
    target_flux := targetFlux
    comparison_flux := compFlux
    relative_flux := rel.map (fun x => x / npMedian rel) }

/-! Helper lemmas about sorting, medians, and monadic mapping. -/

theorem sortQ_sorted (l : List ℚ) :
    List.Sorted (fun x y : ℚ => x ≤ y) (sortQ l) :=
  List.sorted_insertionSort _ l

theorem sortQ_perm (l : List ℚ) : (sortQ l).Perm l :=
  List.perm_insertionSort _ l

theorem sortQ_length (l : List ℚ) : (sortQ l).length = l.length :=
  (sortQ_perm l).length_eq

/-- Dividing by a positive scalar commutes with sorting. -/
theorem sortQ_map_div_pos (l : List ℚ) (m : ℚ) (hm : 0 < m) :
    sortQ (l.map (fun x => x / m)) = (sortQ l).map (fun x => x / m) := by
  have hperm : (sortQ (l.map (fun x => x / m))).Perm
      ((sortQ l).map (fun x => x / m)) :=
    (sortQ_perm _).trans ((sortQ_perm l).map _).symm
  have hsorted : List.Sorted (fun x y : ℚ => x ≤ y)
      ((sortQ l).map (fun x => x / m)) :=
    List.Pairwise.map _ (fun a b hab => by gcongr) (sortQ_sorted l)
  exact List.eq_of_perm_of_sorted hperm (sortQ_sorted _) hsorted

/-- Dividing by a negative scalar reverses the sorted order. -/
theorem sortQ_map_div_neg (l : List ℚ) (m : ℚ) (hm : m < 0) :
    sortQ (l.map (fun x => x / m)) = ((sortQ l).map (fun x => x / m)).reverse := by
  have hanti : ∀ a b : ℚ, a ≤ b → b / m ≤ a / m := by
    intro a b hab
    rw [div_eq_mul_inv, div_eq_mul_inv]
    exact mul_le_mul_of_nonpos_right hab (le_of_lt (inv_lt_zero.mpr hm))
  have hperm : (sortQ (l.map (fun x => x / m))).Perm
      (((sortQ l).map (fun x => x / m)).reverse) :=
    (sortQ_perm _).trans
      (((List.reverse_perm _).trans ((sortQ_perm l).map _)).symm)
  have hsorted : List.Sorted (fun x y : ℚ => x ≤ y)
      (((sortQ l).map (fun x => x / m)).reverse) := by
    rw [List.Sorted, List.pairwise_reverse]
    exact List.Pairwise.map _ (fun a b hab => hanti a b hab) (sortQ_sorted l)
  exact List.eq_of_perm_of_sorted hperm (sortQ_sorted _) hsorted

theorem getD_map_div (lst : List ℚ) (m : ℚ) (i : ℕ) :
    (lst.map (fun x => x / m)).getD i 0 = lst.getD i 0 / m := by
  simpa using List.getD_map lst 0 (fun x => x / m)

theorem getD_reverse (lst : List ℚ) {i : ℕ} (hi : i < lst.length) :
    lst.reverse.getD i 0 = lst.getD (lst.length - 1 - i) 0 := by
  rw [List.getD_eq_getElem?_getD, List.getD_eq_getElem?_getD,
    List.getElem?_reverse hi]

/-- np.median commutes with division by a nonzero scalar. -/
theorem npMedian_map_div (l : List ℚ) (m : ℚ) (hm : m ≠ 0) :
    npMedian (l.map (fun x => x / m)) = npMedian l / m := by
  rcases eq_or_ne l [] with rfl | hl
  · simp [npMedian]
  have hn : l.length ≠ 0 := fun h => hl (List.length_eq_zero.mp h)
  rcases hm.lt_or_lt with hneg | hpos
  · have hs := sortQ_map_div_neg l m hneg
    have hmaplen : ((sortQ l).map (fun x => x / m)).length = l.length := by
      rw [List.length_map, sortQ_length]
    unfold npMedian
    simp only [List.length_map]
    rw [if_neg hn, if_neg hn, hs]
    by_cases hodd : l.length % 2 = 1
    · rw [if_pos hodd, if_pos hodd]
      have hlt : l.length / 2 < ((sortQ l).map (fun x => x / m)).length := by
        rw [hmaplen]; exact Nat.div_lt_self (Nat.pos_of_ne_zero hn) one_lt_two
      rw [getD_reverse _ hlt, hmaplen]
      have hidx : l.length - 1 - l.length / 2 = l.length / 2 := by omega
      rw [hidx, getD_map_div]
    · rw [if_neg hodd, if_neg hodd]
      have h2 : 2 ≤ l.length := by omega
      have hlt1 : l.length / 2 - 1 < ((sortQ l).map (fun x => x / m)).length := by
        rw [hmaplen]; omega
      have hlt2 : l.length / 2 < ((sortQ l).map (fun x => x / m)).length := by
        rw [hmaplen]; exact Nat.div_lt_self (Nat.pos_of_ne_zero hn) one_lt_two
      rw [getD_reverse _ hlt1, getD_reverse _ hlt2, hmaplen]
      have hidx1 : l.length - 1 - (l.length / 2 - 1) = l.length / 2 := by omega
      have hidx2 : l.length - 1 - l.length / 2 = l.length / 2 - 1 := by omega
      rw [hidx1, hidx2, getD_map_div, getD_map_div, div_add_div_same,
        add_comm, div_right_comm]
  · have hs := sortQ_map_div_pos l m hpos
    unfold npMedian
    simp only [List.length_map]
    rw [if_neg hn, if_neg hn, hs]
    by_cases hodd : l.length % 2 = 1
    · rw [if_pos hodd, if_pos hodd, getD_map_div]
    · rw [if_neg hodd, if_neg hodd, getD_map_div, getD_map_div,
        div_add_div_same, div_right_comm]

/-- List.mapM over Except succeeds pointwise. -/
theorem mapM_ok_of_forall {α β : Type} (g : α → Except String β) (gp : α → β)
    (xs : List α) (h : ∀ a ∈ xs, g a = Except.ok (gp a)) :
    xs.mapM g = Except.ok (xs.map gp) := by
  induction xs with
  | nil => rfl
  | cons a as ih =>
    have ha := h a (List.mem_cons_self a as)
    have has : ∀ b ∈ as, g b = Except.ok (gp b) :=
      fun b hb => h b (List.mem_cons_of_mem a hb)
    rw [List.mapM_cons, ha, ih has]
    rfl

/-! Concrete fixtures used by the witness theorems. -/

/-- An environment whose library calls all return trivial values (and whose
DATE-OBS conversion returns the constant 7). -/
def envZero : AstroEnv where
  apertureSum := fun _ _ _ => 0
  annulusSum := fun _ _ _ _ => 0
  apertureArea := fun _ => 0
  annulusArea := fun _ _ => 0
  sigmaClippedStats := fun _ _ => ⟨0, 0, 0⟩
  daoFind := fun _ _ _ => []
  jdOfDateObs := fun _ => 7

/-- A loader that always yields the same small frame. -/
def loadConst : Load := fun _ => Except.ok ([1, 2], [("OBJECT", "M42")])

/-- The pixel data of the flat frame used by the master-flat witness. -/
def dataFlat : String → Image := fun _ => [2]

/-- A loader yielding that flat frame with an empty header. -/
def loadFlat : Load := fun f => Except.ok (dataFlat f, [])

/-! Claim theorems. -/

/-- C1: for every position, measure_aperture_photometry computes
background-per-pixel as annulus sum / annulus area, scaled background as
background-per-pixel times aperture area, and background-subtracted flux
as aperture sum minus scaled background. -/
theorem measure_aperture_photometry_bkg_subtraction
    (env : AstroEnv) (data : Image) (positions : List Pos)
    (r rin rout : ℚ) :
    (measureAperturePhotometry env data positions r rin rout).map
        (fun row => row.background) =
      positions.map (fun p =>
        env.annulusSum data p rin rout / env.annulusArea rin rout) ∧
    (measureAperturePhotometry env data positions r rin rout).map
        (fun row => row.aper_bkg) =
      positions.map (fun p =>
        env.annulusSum data p rin rout / env.annulusArea rin rout *
          env.apertureArea r) ∧
    (measureAperturePhotometry env data positions r rin rout).map
        (fun row => row.aper_sum_bkgsub) =
      positions.map (fun p =>
        env.apertureSum data p r -
          env.annulusSum data p rin rout / env.annulusArea rin rout *
            env.apertureArea r) := by
  refine ⟨?_, ?_, ?_⟩ <;>
    simp [measureAperturePhotometry, List.map_map, Function.comp]

/-- C10: extract_light_curve with an empty comparison-position list behaves
exactly as with None, because the presence check is Python truthiness: the
reference denominator is the constant 1.0 in both cases and the two light
curves coincide. -/
theorem extract_light_curve_empty_comparisons_truthiness
    (env : AstroEnv) (frames : List Frame) (tp : Pos) (r : ℚ) :
    extractLightCurve env frames tp (some []) r =
      extractLightCurve env frames tp none r ∧
    (extractLightCurve env frames tp (some []) r).comparison_flux =
      frames.map (fun _ => 1) := by
  constructor
  · simp [extractLightCurve, optTruthy]
  · unfold extractLightCurve
    simp only [optTruthy, List.isEmpty_nil, Bool.not_true, Bool.false_eq_true,
      if_false, List.map_map]
    rfl

/-- C2: extract_light_curve resolves the observation time of every file by
trying JD first, then MJD, then DATE-OBS converted to a Julian Date, and
falls back to 0.0 when none of these keys is present; every frame still
yields a row (none is skipped, no error value is produced). -/
theorem extract_light_curve_time_resolution
    (env : AstroEnv) (frames : List Frame) (tp : Pos)
    (cp : Option (List Pos)) (r : ℚ) :
    (extractLightCurve env frames tp cp r).time =
        frames.map (fun fr => resolveTime env.jdOfDateObs fr.header) ∧
    (∀ hdr : TimeHeader, ∀ t, hdr.jd = some t →
        resolveTime env.jdOfDateObs hdr = t) ∧
    (∀ hdr : TimeHeader, ∀ t, hdr.jd = none → hdr.mjd = some t →
        resolveTime env.jdOfDateObs hdr = t) ∧
    (∀ hdr : TimeHeader, ∀ s, hdr.jd = none → hdr.mjd = none →
        hdr.dateObs = some s →
        resolveTime env.jdOfDateObs hdr = env.jdOfDateObs s) ∧
    (∀ hdr : TimeHeader, hdr.jd = none → hdr.mjd = none →
        hdr.dateObs = none → resolveTime env.jdOfDateObs hdr = 0) ∧
    (extractLightCurve env frames tp cp r).time.length = frames.length := by
  refine ⟨?_, ?_, ?_, ?_, ?_, ?_⟩
  · simp [extractLightCurve, List.map_map, Function.comp]
  · intro hdr t hjd
    simp [resolveTime, hjd]
  · intro hdr t hjd hmjd
    simp [resolveTime, hjd, hmjd]
  · intro hdr s hjd hmjd hobs
    simp [resolveTime, hjd, hmjd, hobs]
  · intro hdr hjd hmjd hobs
    simp [resolveTime, hjd, hmjd, hobs]
  · simp [extractLightCurve]

/-- Witness for C2 at concrete headers: JD wins over MJD, MJD is used when
JD is absent, DATE-OBS is converted (envZero converts every date string to
7), the fallback is 0.0, and a frame with no time keyword still produces
its row. -/
theorem extract_light_curve_time_resolution_witness :
    resolveTime envZero.jdOfDateObs ⟨some 3, some 4, some "x"⟩ = 3 ∧
    resolveTime envZero.jdOfDateObs ⟨none, some 4, some "x"⟩ = 4 ∧
    resolveTime envZero.jdOfDateObs ⟨none, none, some "2024-01-01"⟩ = 7 ∧
    resolveTime envZero.jdOfDateObs ⟨none, none, none⟩ = 0 ∧
    (extractLightCurve envZero [⟨[], ⟨none, none, none⟩⟩] (0, 0) none 10).time
      = [0] := by
  obtain ⟨h1, h2, h3, h4, h5, h6⟩ :=
    extract_light_curve_time_resolution envZero
      [⟨[], ⟨none, none, none⟩⟩] (0, 0) none 10
  refine ⟨h2 ⟨some 3, some 4, some "x"⟩ 3 rfl,
    h3 ⟨none, some 4, some "x"⟩ 4 rfl rfl,
    h4 ⟨none, none, some "2024-01-01"⟩ "2024-01-01" rfl rfl rfl,
    h5 ⟨none, none, none⟩ rfl rfl rfl, ?_⟩
  rw [h1]
  simp [h5 ⟨none, none, none⟩ rfl rfl rfl]

/-- C3: in extract_light_curve the reference denominator of a row is the
sum of the comparison-star background-subtracted fluxes when comparison
positions are supplied (a truthy, i.e. nonempty, list), and the constant
1.0 otherwise; the relative_flux column is target flux / denominator per
row, then the whole column is divided by its median. -/
theorem extract_light_curve_reference_normalization
    (env : AstroEnv) (frames : List Frame) (tp : Pos)
    (cp : Option (List Pos)) (r : ℚ) :
    (∀ l, cp = some l → l ≠ [] →
      (extractLightCurve env frames tp cp r).comparison_flux =
        frames.map (fun fr => (bkgsubColumn env fr.data l r).sum)) ∧
    (optTruthy cp = false →
      (extractLightCurve env frames tp cp r).comparison_flux =
        frames.map (fun _ => 1)) ∧
    (extractLightCurve env frames tp cp r).relative_flux =
      (List.zipWith (fun a b => a / b)
          (extractLightCurve env frames tp cp r).target_flux
          (extractLightCurve env frames tp cp r).comparison_flux).map
        (fun x => x / npMedian (List.zipWith (fun a b => a / b)
          (extractLightCurve env frames tp cp r).target_flux
          (extractLightCurve env frames tp cp r).comparison_flux)) := by
  refine ⟨?_, ?_, ?_⟩
  · rintro l rfl hl
    have htruthy : optTruthy (some l) = true := by
      simp [optTruthy, List.isEmpty_eq_false.mpr hl]
    simp [extractLightCurve, htruthy, List.map_map, Function.comp]
  · intro hfalse
    unfold extractLightCurve
    simp only [hfalse, Bool.false_eq_true, if_false, List.map_map]
    rfl
  · rfl

/-- Witness for C3: with one frame, a supplied nonempty comparison list
gives the summed comparison flux (0 under envZero) as denominator, while
None gives the constant 1.0. -/
theorem extract_light_curve_reference_normalization_witness :
    (extractLightCurve envZero [⟨[], ⟨none, none, none⟩⟩] (0, 0)
        (some [(1, 1)]) 10).comparison_flux = [0] ∧
    (extractLightCurve envZero [⟨[], ⟨none, none, none⟩⟩] (0, 0)
        none 10).comparison_flux = [1] := by
  constructor
  · have h := (extract_light_curve_reference_normalization envZero
      [⟨[], ⟨none, none, none⟩⟩] (0, 0) (some [(1, 1)]) 10).1
      [(1, 1)] rfl (by simp)
    rw [h]
    simp [bkgsubColumn, measureAperturePhotometry, envZero]
  · have h := (extract_light_curve_reference_normalization envZero
      [⟨[], ⟨none, none, none⟩⟩] (0, 0) none 10).2.1 rfl
    rw [h]
    rfl

/-- getD of a mapped list at an in-range index, for an arbitrary default. -/
theorem getD_map_of_lt {α β : Type} (f : α → β) (lst : List α) (d : α) (e : β)
    {i : ℕ} (hi : i < lst.length) :
    (lst.map f).getD i e = f (lst.getD i d) := by
  rw [List.getD_eq_getElem?_getD, List.getD_eq_getElem?_getD,
    List.getElem?_map, List.getElem?_eq_getElem hi]
  rfl

/-- The magnitude -2.5 * np.log10(q) of a non-positive flux q is +inf or
NaN, never a finite number. -/
theorem npMagValue_nonpos_not_finite (q : ℚ) (hq : q ≤ 0) :
    (npMulNegTwoPointFive (npLog10 q)).isFinite = false := by
  unfold npLog10
  rw [if_neg (not_lt.mpr hq)]
  by_cases h0 : q = 0
  · rw [if_pos h0]
    rfl
  · rw [if_neg h0]
    rfl

/-- C4: create_master_flat bias-subtracts each flat when a master bias is
given, divides each flat by its own median (both inside flatNormalize),
median-combines them, renormalizes the combination by its median, and the
returned master flat has median pixel value exactly 1.0 (validity: the
combined frame's median is nonzero, the case where the closing division is
defined). -/
theorem create_master_flat_median_one
    (load : Load) (mb : Option Image) (files : List String)
    (dataOf : String → Image) (hdrOf : String → HistHeader)
    (hne : files ≠ [])
    (hload : ∀ f ∈ files, load f = Except.ok (dataOf f, hdrOf f))
    (hmed : npMedian (medianCombine
      (files.map (fun f => flatNormalize mb (dataOf f)))) ≠ 0) :
    createMasterFlat load files mb =
      Except.ok (imDivScalar
        (medianCombine (files.map (fun f => flatNormalize mb (dataOf f))))
        (npMedian (medianCombine
          (files.map (fun f => flatNormalize mb (dataOf f)))))) ∧
    npMedian (imDivScalar
        (medianCombine (files.map (fun f => flatNormalize mb (dataOf f))))
        (npMedian (medianCombine
          (files.map (fun f => flatNormalize mb (dataOf f)))))) = 1 := by
  constructor
  · unfold createMasterFlat
    rw [if_neg (fun h => hne (List.length_eq_zero.mp h)),
      mapM_ok_of_forall _ (fun f => flatNormalize mb (dataOf f)) files
        (fun f hf => by rw [hload f hf]; rfl)]
    rfl
  · unfold imDivScalar
    rw [npMedian_map_div _ _ hmed, div_self hmed]

/-- Witness for C4: one flat frame [2], no master bias; the
construction succeeds and the resulting master flat has median 1. -/
theorem create_master_flat_median_one_witness :
    createMasterFlat loadFlat ["a"] none =
      Except.ok (imDivScalar
        (medianCombine (["a"].map (fun f => flatNormalize none (dataFlat f))))
        (npMedian (medianCombine
          (["a"].map (fun f => flatNormalize none (dataFlat f)))))) ∧
    npMedian (imDivScalar
        (medianCombine (["a"].map (fun f => flatNormalize none (dataFlat f))))
        (npMedian (medianCombine
          (["a"].map (fun f => flatNormalize none (dataFlat f)))))) = 1 :=
  create_master_flat_median_one loadFlat none ["a"] dataFlat (fun _ => [])
    (by simp) (fun f _ => rfl)
    (by norm_num [dataFlat, flatNormalize, imDivScalar, medianCombine,
      npMedian, sortQ, List.insertionSort, List.orderedInsert,
      List.range_succ])

/-- C5: the mag_inst column is -2.5 * np.log10 of the background-subtracted
flux, and whenever that flux is non-positive the magnitude is a non-finite
value (the computation is total, no error is raised). -/
theorem mag_inst_nonpositive_flux_nonfinite
    (env : AstroEnv) (data : Image) (positions : List Pos)
    (r rin rout : ℚ) (i : ℕ) (hi : i < positions.length) :
    (magInstColumn env data positions r rin rout).getD i NpVal.nan =
      npMulNegTwoPointFive (npLog10
        (((measureAperturePhotometry env data positions r rin rout).getD i
          ⟨0, 0, 0, 0⟩).aper_sum_bkgsub)) ∧
    (((measureAperturePhotometry env data positions r rin rout).getD i
        ⟨0, 0, 0, 0⟩).aper_sum_bkgsub ≤ 0 →
      ((magInstColumn env data positions r rin rout).getD i
        NpVal.nan).isFinite = false) := by
  have hi' : i < (measureAperturePhotometry env data positions r rin rout).length := by
    unfold measureAperturePhotometry
    rw [List.length_map]
    exact hi
  constructor
  · unfold magInstColumn
    exact getD_map_of_lt _ _ ⟨0, 0, 0, 0⟩ NpVal.nan hi'
  · intro hflux
    unfold magInstColumn
    rw [getD_map_of_lt _ _ ⟨0, 0, 0, 0⟩ NpVal.nan hi']
    exact npMagValue_nonpos_not_finite _ hflux

/-- Witness for C5: under envZero the background-subtracted flux at the
single position is 0 ≤ 0 and the magnitude value is non-finite. -/
theorem mag_inst_nonpositive_flux_nonfinite_witness :
    ((magInstColumn envZero [] [(0, 0)] 10 15 20).getD 0 NpVal.nan).isFinite
      = false := by
  have h := mag_inst_nonpositive_flux_nonfinite envZero [] [(0, 0)] 10 15 20 0
    (by decide)
  exact h.2 (by norm_num [measureAperturePhotometry, envZero])

/-- C6: with an empty file list both calibration builders return the
input-validation error without invoking the loader at all (the result is
the same for every loader, including one that would fail on any read);
with a non-empty list whose files all load they produce a combined
frame. -/
theorem master_builders_empty_list_validation
    (load : Load) (mb : Option Image) (files : List String)
    (resOf : String → Image × HistHeader) :
    createMasterBias load [] = Except.error "No bias files provided" ∧
    createMasterFlat load [] mb = Except.error "No flat files provided" ∧
    (files ≠ [] → (∀ f ∈ files, load f = Except.ok (resOf f)) →
      createMasterBias load files =
        Except.ok (medianCombine (files.map (fun f => (resOf f).1))) ∧
      createMasterFlat load files mb =
        Except.ok (imDivScalar
          (medianCombine (files.map (fun f => flatNormalize mb (resOf f).1)))
          (npMedian (medianCombine
            (files.map (fun f => flatNormalize mb (resOf f).1)))))) := by
  refine ⟨rfl, rfl, fun hne hok => ⟨?_, ?_⟩⟩
  · unfold createMasterBias
    rw [if_neg (fun h => hne (List.length_eq_zero.mp h)),
      mapM_ok_of_forall _ (fun f => (resOf f).1) files
        (fun f hf => by rw [hok f hf]; rfl)]
    rfl
  · unfold createMasterFlat
    rw [if_neg (fun h => hne (List.length_eq_zero.mp h)),
      mapM_ok_of_forall _ (fun f => flatNormalize mb (resOf f).1) files
        (fun f hf => by rw [hok f hf]; rfl)]
    rfl

/-- Witness for C6: the empty list yields the validation error, and a
one-element list with a succeeding loader yields a combined frame. -/
theorem master_builders_empty_list_validation_witness :
    createMasterBias loadConst [] = Except.error "No bias files provided" ∧
    createMasterBias loadConst ["b"] =
      Except.ok (medianCombine [([1, 2] : Image)]) := by
  obtain ⟨h1, h2, h3⟩ := master_builders_empty_list_validation loadConst none
    ["b"] (fun _ => ([1, 2], [("OBJECT", "M42")]))
  refine ⟨h1, ?_⟩
  rw [(h3 (by simp) (fun f _ => rfl)).1]
  rfl

/-- C7: reduce_science_frame with master_bias = None and master_flat = None
returns the loaded pixel data unchanged and the header without any HISTORY
note appended. -/
theorem reduce_science_frame_identity_case
    (load : Load) (file : String) (d : Image) (hdr : HistHeader)
    (h : load file = Except.ok (d, hdr)) :
    reduceScienceFrame load file none none = Except.ok (d, hdr) := by
  unfold reduceScienceFrame
  rw [h]
  rfl

/-- Witness for C7 on a concrete loader and frame. -/
theorem reduce_science_frame_identity_case_witness :
    reduceScienceFrame loadConst "sci.fits" none none =
      Except.ok ([1, 2], [("OBJECT", "M42")]) :=
  reduce_science_frame_identity_case loadConst "sci.fits" [1, 2]
    [("OBJECT", "M42")] rfl

/-- C8: find_sources returns the empty detection table exactly when the
star finder detects nothing on the background-subtracted image; the empty
table is an ordinary return value, produced by the same code path as any
other result (no error value exists in the return type). -/
theorem find_sources_empty_result_valid
    (env : AstroEnv) (data : Image) (fwhm threshold : ℚ) :
    findSources env data fwhm threshold = [] ↔
      env.daoFind fwhm (threshold * (env.sigmaClippedStats data 3).std)
        (imSubScalar data (env.sigmaClippedStats data 3).median) = [] :=
  Iff.rfl

/-- C9: reducing any number of science frames never mutates the
caller-provided master bias or master flat: after a whole batch both are
element-for-element the frames passed in. -/
theorem batch_reduce_preserves_master_frames
    (load : Load) (files : List String) (mb mf : Option Image) :
    (batchReduceTracked load files mb mf).2.1 = mb ∧
    (batchReduceTracked load files mb mf).2.2 = mf := by
  induction files generalizing mb mf with
  | nil => exact ⟨rfl, rfl⟩
  | cons f fs ih =>
    simpa [batchReduceTracked, reduceScienceFrameTracked] using ih mb mf

end Exoplanets
